import Mathlib

/-!
Verification of the `treer` directory-listing program (`src/main.rs`).

The program is a linear pipeline: parse one path argument, validate that
it is an existing directory, enumerate its immediate children, and print
each child's name (lossily decoded) one per line.  The filesystem and the
OS-string decoding are modelled as an abstract environment `FS`: the code
under verification is exactly the Rust source, translated function by
function.
-/

namespace Treer

/-- The `std::io::ErrorKind` values the program inspects: `NotFound` and
`PermissionDenied` are matched explicitly; every other kind falls into the
catch-all arm, collapsed here into `other`. -/
inductive ErrorKind where
  | notFound
  | permissionDenied
  | other
deriving DecidableEq, Repr

/-- Model of `std::io::Error`: its `kind()` and its `Display` message. -/
structure IOError where
  kind : ErrorKind
  msg : String
deriving DecidableEq, Repr

/-- Model of `std::fs::Metadata`: the program only calls `is_dir()`. -/
structure Metadata where
  is_dir : Bool
deriving DecidableEq, Repr

/-- Raw bytes of an OS file name (`std::ffi::OsString`); may not be valid
text. -/
abbrev OsString := List Nat

/-- Model of `std::fs::DirEntry`: the program only uses `file_name()`. -/
structure DirEntry where
  file_name : OsString
deriving DecidableEq, Repr

/-- The `AppError` enum of `src/main.rs`.  Paths are modelled by their
display strings. -/
inductive AppError where
  | InvalidArgs
  | PathNotFound (path : String)
  | NotADirectory (path : String)
  | PermissionDenied (path : String)
  | Io (e : IOError)
deriving DecidableEq, Repr

/-- The abstract environment: the process argument list (`env::args`), the
filesystem primitives `fs::metadata` and `fs::read_dir` (the latter
yielding a stream of per-entry results), and `OsStr::to_string_lossy`,
the std decoding that substitutes replacement characters for bytes that
are not valid text and never fails. -/
structure FS where
  argv : List String
  metadata : String → Except IOError Metadata
  read_dir : String → Except IOError (List (Except IOError DirEntry))
  to_string_lossy : OsString → String

/-- `impl fmt::Display for AppError` (lines 22–32 of `src/main.rs`). -/
def AppError.render : AppError → String
  | AppError.InvalidArgs => "invalid arguments"
  | AppError.PathNotFound path => "path not found: " ++ path
  | AppError.NotADirectory path => "not a directory: " ++ path
  | AppError.PermissionDenied path => "permission denied: " ++ path
  | AppError.Io e => "I/O error: " ++ e.msg

/-- `validate_path` (lines 34–47): query metadata, mapping a `NotFound`
failure to `PathNotFound` and any other failure to `Io`; then require
`is_dir()`. -/
def validate_path (fs : FS) (path : String) : Except AppError Unit :=
  match fs.metadata path with
  | Except.error e =>
    match e.kind with
    | ErrorKind.notFound => Except.error (AppError.PathNotFound path)
    | _ => Except.error (AppError.Io e)
  | Except.ok metadata =>
    if !metadata.is_dir then Except.error (AppError.NotADirectory path)
    else Except.ok ()

/-- The `res.map_err(AppError::from)` step inside `read_directory`
(line 57): `From<io::Error> for AppError` wraps into `AppError::Io`. -/
def entryFrom : Except IOError DirEntry → Except AppError DirEntry
  | Except.ok d => Except.ok d
  | Except.error e => Except.error (AppError.Io e)

/-- `Iterator::collect::<Result<Vec<_>, _>>()` (line 59): materialize the
per-entry results in order, short-circuiting on the first error. -/
def collectResults : List (Except AppError DirEntry) → Except AppError (List DirEntry)
  | [] => Except.ok []
  | Except.error e :: _ => Except.error e
  | Except.ok d :: rest =>
    match collectResults rest with
    | Except.error e => Except.error e
    | Except.ok ds => Except.ok (d :: ds)

/-- `read_directory` (lines 49–60): open the directory stream, mapping a
`PermissionDenied` failure to `AppError::PermissionDenied` and any other
failure to `Io`; then collect every entry result into a vector. -/
def read_directory (fs : FS) (path : String) : Except AppError (List DirEntry) :=
  match fs.read_dir path with
  | Except.error e =>
    match e.kind with
    | ErrorKind.permissionDenied => Except.error (AppError.PermissionDenied path)
    | _ => Except.error (AppError.Io e)
  | Except.ok results => collectResults (results.map entryFrom)

/-- `parse_args` (lines 62–68): succeed with `args[1]` when the argument
count is exactly 2, otherwise `InvalidArgs`. -/
def parse_args (args : List String) : Except AppError String :=
  match args with
  | [_, p] => Except.ok p
  | _ => Except.error AppError.InvalidArgs

/-- `run` (lines 70–82): parse, validate, enumerate — each `?` aborting
with the error — then print each entry's lossily decoded name, one line
per entry, in enumeration order.  The returned list is the sequence of
stdout lines; the print loop runs only after the entry vector has been
fully materialized, so an aborted run produces no lines. -/
def run (fs : FS) : Except AppError Unit × List String :=
  match parse_args fs.argv with
  | Except.error e => (Except.error e, [])
  | Except.ok path =>
    match validate_path fs path with
    | Except.error e => (Except.error e, [])
    | Except.ok _ =>
      match read_directory fs path with
      | Except.error e => (Except.error e, [])
      | Except.ok entries =>
        (Except.ok (), entries.map (fun entry => fs.to_string_lossy entry.file_name))

/-- Observable outcome of one process execution: stdout lines, stderr
lines, and the exit status. -/
structure ProcResult where
  stdout : List String
  stderr : List String
  exitCode : Nat
deriving DecidableEq, Repr

/-- `main` (lines 84–88): run the pipeline; on error print the rendered
message to stderr with `eprintln!`.  No exit code is ever set, so the
process always terminates with the default success status 0. -/
def main (fs : FS) : ProcResult :=
  match run fs with
  | (Except.error e, out) => { stdout := out, stderr := [AppError.render e], exitCode := 0 }
  | (Except.ok _, out) => { stdout := out, stderr := [], exitCode := 0 }

/-! Concrete environments used to exhibit each behaviour on explicit
inputs. -/

/-- A concrete lossy decoding for the sample environments: each byte maps
to the character of its code point. -/
def lossyDemo (bs : OsString) : String := String.mk (bs.map Char.ofNat)

/-- Sample entry named "a". -/
def entryA : DirEntry := { file_name := [97] }

/-- Sample entry named "b". -/
def entryB : DirEntry := { file_name := [98] }

/-- Sample entry named "c". -/
def entryC : DirEntry := { file_name := [99] }

/-- A per-entry read failure used in the sample environments. -/
def midErr : IOError := { kind := ErrorKind.other, msg := "mid" }

/-- Environment whose metadata query reports `NotFound` everywhere. -/
def fsNotFound : FS :=
  { argv := ["treer", "p"]
    metadata := fun _ => Except.error { kind := ErrorKind.notFound, msg := "nf" }
    read_dir := fun _ => Except.ok []
    to_string_lossy := lossyDemo }

/-- Environment whose metadata query fails with `PermissionDenied` while
stat-ing. -/
def fsStatDenied : FS :=
  { argv := ["treer", "p"]
    metadata := fun _ => Except.error { kind := ErrorKind.permissionDenied, msg := "denied" }
    read_dir := fun _ => Except.ok []
    to_string_lossy := lossyDemo }

/-- Environment where every path resolves to a regular file. -/
def fsFile : FS :=
  { argv := ["treer", "p"]
    metadata := fun _ => Except.ok { is_dir := false }
    read_dir := fun _ => Except.ok []
    to_string_lossy := lossyDemo }

/-- Environment with a readable directory holding entries "a" and "b". -/
def fsOkDir : FS :=
  { argv := ["treer", "d"]
    metadata := fun _ => Except.ok { is_dir := true }
    read_dir := fun _ => Except.ok [Except.ok entryA, Except.ok entryB]
    to_string_lossy := lossyDemo }

/-- Environment where opening the directory stream is denied. -/
def fsReadDenied : FS :=
  { argv := ["treer", "d"]
    metadata := fun _ => Except.ok { is_dir := true }
    read_dir := fun _ => Except.error { kind := ErrorKind.permissionDenied, msg := "denied" }
    to_string_lossy := lossyDemo }

/-- Environment where opening the directory stream fails for another
cause. -/
def fsReadOther : FS :=
  { argv := ["treer", "d"]
    metadata := fun _ => Except.ok { is_dir := true }
    read_dir := fun _ => Except.error { kind := ErrorKind.other, msg := "boom" }
    to_string_lossy := lossyDemo }

/-- Environment whose enumeration fails on the second entry, after one
entry succeeded and with one more pending. -/
def fsMidFail : FS :=
  { argv := ["treer", "d"]
    metadata := fun _ => Except.ok { is_dir := true }
    read_dir := fun _ => Except.ok [Except.ok entryA, Except.error midErr, Except.ok entryC]
    to_string_lossy := lossyDemo }

/-- Environment invoked with no path argument. -/
def fsBadArgs : FS :=
  { argv := ["treer"]
    metadata := fun _ => Except.ok { is_dir := true }
    read_dir := fun _ => Except.ok []
    to_string_lossy := lossyDemo }

/-! Helper lemmas shared by the claim theorems. -/

/-- Collecting a stream whose prefix succeeds and whose next result fails
yields that failure, wrapped in `Io`. -/
lemma collectResults_first_error (pre : List DirEntry) (e : IOError)
    (post : List (Except IOError DirEntry)) :
    collectResults ((pre.map Except.ok ++ Except.error e :: post).map entryFrom) =
      Except.error (AppError.Io e) := by
  induction pre with
  | nil => rfl
  | cons d rest ih =>
    simp only [List.map_append, List.map_map, List.map_cons, entryFrom] at ih
    simp [collectResults, entryFrom, ih]

/-- If any per-entry result in the stream is an error, collecting yields
one of those errors, wrapped in `Io`. -/
lemma collectResults_error_of_mem (rs : List (Except IOError DirEntry))
    (he : ∃ e : IOError, Except.error e ∈ rs) :
    ∃ e : IOError, Except.error e ∈ rs ∧
      collectResults (rs.map entryFrom) = Except.error (AppError.Io e) := by
  induction rs with
  | nil => simp at he
  | cons r rest ih =>
    cases r with
    | error e =>
      exact ⟨e, List.mem_cons_self _ _, by simp [collectResults, entryFrom]⟩
    | ok d =>
      have hrest : ∃ e : IOError, Except.error e ∈ rest := by
        obtain ⟨e, hm⟩ := he
        cases List.mem_cons.mp hm with
        | inl h => exact absurd h (by simp)
        | inr h => exact ⟨e, h⟩
      obtain ⟨e, hmem, hc⟩ := ih hrest
      exact ⟨e, List.mem_cons_of_mem _ hmem, by simp [collectResults, entryFrom, hc]⟩

/-- A fully successful pipeline produces the decoded entry names, in
order, as the stdout lines. -/
lemma run_ok_eq (fs : FS) (path : String) (entries : List DirEntry)
    (h1 : parse_args fs.argv = Except.ok path)
    (h2 : validate_path fs path = Except.ok ())
    (h3 : read_directory fs path = Except.ok entries) :
    run fs = (Except.ok (), entries.map fun d => fs.to_string_lossy d.file_name) := by
  simp [run, h1, h2, h3]

/-- A run that fails at any stage produces no stdout lines. -/
lemma run_error_no_lines (fs : FS) (e : AppError)
    (h : (run fs).1 = Except.error e) : (run fs).2 = [] := by
  rcases hp : parse_args fs.argv with e1 | path
  · simp [run, hp]
  · rcases hv : validate_path fs path with e2 | u
    · simp [run, hp, hv]
    · cases u
      rcases hr : read_directory fs path with e3 | entries
      · simp [run, hp, hv, hr]
      · exfalso
        simp [run, hp, hv, hr] at h

/-- C1: for every path, `validate_path` fails with `PathNotFound` carrying
the path when the metadata query reports the path does not exist, fails
with `NotADirectory` carrying the path when the query succeeds on a
non-directory, and succeeds with no value when the path resolves to a
directory. -/
theorem validate_path_classifies (fs : FS) (p : String) :
    (∀ e : IOError, fs.metadata p = Except.error e → e.kind = ErrorKind.notFound →
      validate_path fs p = Except.error (AppError.PathNotFound p)) ∧
    (∀ m : Metadata, fs.metadata p = Except.ok m → m.is_dir = false →
      validate_path fs p = Except.error (AppError.NotADirectory p)) ∧
    (∀ m : Metadata, fs.metadata p = Except.ok m → m.is_dir = true →
      validate_path fs p = Except.ok ()) := by
  refine ⟨fun e he hk => ?_, fun m hm hd => ?_, fun m hm hd => ?_⟩
  · simp [validate_path, he, hk]
  · simp [validate_path, hm, hd]
  · simp [validate_path, hm, hd]

/-- Witness for C1: the three branches exhibited on concrete
filesystems. -/
theorem validate_path_classifies_witness :
    validate_path fsNotFound "p" = Except.error (AppError.PathNotFound "p") ∧
    validate_path fsFile "p" = Except.error (AppError.NotADirectory "p") ∧
    validate_path fsOkDir "d" = Except.ok () :=
  ⟨(validate_path_classifies fsNotFound "p").1
      { kind := ErrorKind.notFound, msg := "nf" } rfl rfl,
   (validate_path_classifies fsFile "p").2.1 { is_dir := false } rfl rfl,
   (validate_path_classifies fsOkDir "d").2.2 { is_dir := true } rfl rfl⟩

/-- C2: when the metadata query fails for any reason other than
non-existence (access denied included), `validate_path` fails with the
generic `Io` variant wrapping the underlying error, and never with
`PermissionDenied`. -/
theorem validate_path_other_is_io (fs : FS) (p : String) (e : IOError)
    (h : fs.metadata p = Except.error e) (hk : e.kind ≠ ErrorKind.notFound) :
    validate_path fs p = Except.error (AppError.Io e) ∧
    ∀ q : String, validate_path fs p ≠ Except.error (AppError.PermissionDenied q) := by
  have hmain : validate_path fs p = Except.error (AppError.Io e) := by
    cases hek : e.kind with
    | notFound => exact absurd hek hk
    | permissionDenied => simp [validate_path, h, hek]
    | other => simp [validate_path, h, hek]
  exact ⟨hmain, fun q hq => by rw [hmain] at hq; simp at hq⟩

/-- Witness for C2: stat-ing with access denied yields the generic `Io`
error. -/
theorem validate_path_other_is_io_witness :
    validate_path fsStatDenied "p" =
      Except.error (AppError.Io { kind := ErrorKind.permissionDenied, msg := "denied" }) :=
  (validate_path_other_is_io fsStatDenied "p"
      { kind := ErrorKind.permissionDenied, msg := "denied" } rfl (by decide)).1

/-- C3: `read_directory` fails with `PermissionDenied` carrying the path
when opening the stream is denied, with the generic `Io` error when
opening fails for any other cause, and with the generic `Io` error
wrapping the first failing per-entry read. -/
theorem read_directory_classifies (fs : FS) (p : String) :
    (∀ e : IOError, fs.read_dir p = Except.error e → e.kind = ErrorKind.permissionDenied →
      read_directory fs p = Except.error (AppError.PermissionDenied p)) ∧
    (∀ e : IOError, fs.read_dir p = Except.error e → e.kind ≠ ErrorKind.permissionDenied →
      read_directory fs p = Except.error (AppError.Io e)) ∧
    (∀ (pre : List DirEntry) (e : IOError) (post : List (Except IOError DirEntry)),
      fs.read_dir p = Except.ok (pre.map Except.ok ++ Except.error e :: post) →
      read_directory fs p = Except.error (AppError.Io e)) := by
  refine ⟨fun e he hk => ?_, fun e he hk => ?_, fun pre e post h => ?_⟩
  · simp [read_directory, he, hk]
  · cases hek : e.kind with
    | notFound => simp [read_directory, he, hek]
    | permissionDenied => exact absurd hek hk
    | other => simp [read_directory, he, hek]
  · unfold read_directory
    rw [h]
    exact collectResults_first_error pre e post

/-- Witness for C3: denied open, failed open for another cause, and a
failing per-entry read, on concrete filesystems. -/
theorem read_directory_classifies_witness :
    read_directory fsReadDenied "d" = Except.error (AppError.PermissionDenied "d") ∧
    read_directory fsReadOther "d" =
      Except.error (AppError.Io { kind := ErrorKind.other, msg := "boom" }) ∧
    read_directory fsMidFail "d" = Except.error (AppError.Io midErr) :=
  ⟨(read_directory_classifies fsReadDenied "d").1
      { kind := ErrorKind.permissionDenied, msg := "denied" } rfl rfl,
   (read_directory_classifies fsReadOther "d").2.1
      { kind := ErrorKind.other, msg := "boom" } rfl (by decide),
   (read_directory_classifies fsMidFail "d").2.2 [entryA] midErr [Except.ok entryC] rfl⟩

/-- C4: `parse_args` succeeds with the second element, unmodified, exactly
when the argument list has two elements, and fails with `InvalidArgs` for
every other length. -/
theorem parse_args_arity (args : List String) :
    (∀ p : String, parse_args args = Except.ok p ↔ args.length = 2 ∧ args[1]? = some p) ∧
    (args.length ≠ 2 → parse_args args = Except.error AppError.InvalidArgs) := by
  match args with
  | [] => simp [parse_args]
  | [a] => simp [parse_args]
  | [a, b] => simp [parse_args]
  | a :: b :: c :: t => simp [parse_args]

/-- Witness for C4: a two-element list succeeds with its second element; a
one-element list fails with `InvalidArgs`. -/
theorem parse_args_arity_witness :
    parse_args ["treer", "."] = Except.ok "." ∧
    parse_args ["treer"] = Except.error AppError.InvalidArgs :=
  ⟨((parse_args_arity ["treer", "."]).1 ".").mpr ⟨rfl, rfl⟩,
   (parse_args_arity ["treer"]).2 (by decide)⟩

/-- C5: when parsing, validation and enumeration all succeed, `run` writes
exactly the lossily decoded names of the enumerated entries, one stdout
line per entry, in the reader's order, and succeeds. -/
theorem run_prints_all_entries (fs : FS) (path : String) (entries : List DirEntry)
    (h1 : parse_args fs.argv = Except.ok path)
    (h2 : validate_path fs path = Except.ok ())
    (h3 : read_directory fs path = Except.ok entries) :
    run fs = (Except.ok (), entries.map fun d => fs.to_string_lossy d.file_name) :=
  run_ok_eq fs path entries h1 h2 h3

/-- Witness for C5: the sample directory with entries "a" and "b" prints
exactly those two lines. -/
theorem run_prints_all_entries_witness :
    run fsOkDir = (Except.ok (), ["a", "b"]) :=
  (run_prints_all_entries fsOkDir "d" [entryA, entryB] rfl rfl rfl).trans rfl

/-- C6: when enumeration fails partway through, `read_directory` returns
only the error — one of the per-entry failures wrapped in `Io` — and never
a (partial) sequence of entries. -/
theorem read_directory_no_partial (fs : FS) (p : String)
    (results : List (Except IOError DirEntry))
    (h : fs.read_dir p = Except.ok results)
    (he : ∃ e : IOError, Except.error e ∈ results) :
    (∃ e : IOError, Except.error e ∈ results ∧
      read_directory fs p = Except.error (AppError.Io e)) ∧
    ∀ l : List DirEntry, read_directory fs p ≠ Except.ok l := by
  obtain ⟨e, hmem, hc⟩ := collectResults_error_of_mem results he
  have hr : read_directory fs p = Except.error (AppError.Io e) := by
    unfold read_directory
    rw [h]
    exact hc
  exact ⟨⟨e, hmem, hr⟩, fun l hl => by rw [hr] at hl; exact Except.noConfusion hl⟩

/-- Witness for C6: the enumeration failing on its second entry yields an
error and no partial list. -/
theorem read_directory_no_partial_witness :
    (∃ e : IOError,
      Except.error e ∈ [Except.ok entryA, Except.error midErr, Except.ok entryC] ∧
      read_directory fsMidFail "d" = Except.error (AppError.Io e)) ∧
    ∀ l : List DirEntry, read_directory fsMidFail "d" ≠ Except.ok l :=
  read_directory_no_partial fsMidFail "d"
    [Except.ok entryA, Except.error midErr, Except.ok entryC] rfl ⟨midErr, by simp⟩

/-- C7: every stdout line of a successful run is the decoded name of an
enumerated entry, and each name occurs in the output exactly as often as
in the decoded enumeration — nothing is synthesized or duplicated. -/
theorem output_names_from_entries (fs : FS) (path : String) (entries : List DirEntry)
    (h1 : parse_args fs.argv = Except.ok path)
    (h2 : validate_path fs path = Except.ok ())
    (h3 : read_directory fs path = Except.ok entries) :
    (∀ s ∈ (run fs).2, ∃ d ∈ entries, fs.to_string_lossy d.file_name = s) ∧
    (∀ s : String, ((run fs).2).count s =
      ((entries.map fun d => fs.to_string_lossy d.file_name).count s)) := by
  have h := run_ok_eq fs path entries h1 h2 h3
  rw [h]
  constructor
  · intro s hs
    exact List.mem_map.mp hs
  · intro s
    rfl

/-- Witness for C7: on the sample directory, each printed line comes from
an entry and the multiplicities agree. -/
theorem output_names_from_entries_witness :
    (∀ s ∈ (run fsOkDir).2, ∃ d ∈ [entryA, entryB],
      fsOkDir.to_string_lossy d.file_name = s) ∧
    (∀ s : String, ((run fsOkDir).2).count s =
      (([entryA, entryB].map fun d => fsOkDir.to_string_lossy d.file_name).count s)) :=
  output_names_from_entries fsOkDir "d" [entryA, entryB] rfl rfl rfl

/-- C8: whenever `run` fails, `main` writes exactly one rendered message
to stderr; and the exit status is always the default success status 0 — no
non-zero exit code is ever set, on failure or success. -/
theorem main_reports_once_exit_zero (fs : FS) :
    (main fs).exitCode = 0 ∧
    (∀ (e : AppError) (out : List String), run fs = (Except.error e, out) →
      (main fs).stderr = [AppError.render e]) := by
  constructor
  · rcases h : run fs with ⟨res, out⟩
    cases res with
    | error e => simp [main, h]
    | ok u => simp [main, h]
  · intro e out h
    simp [main, h]

/-- Witness for C8: a run with no path argument reports "invalid
arguments" once on stderr and exits with status 0. -/
theorem main_reports_once_exit_zero_witness :
    (main fsBadArgs).exitCode = 0 ∧ (main fsBadArgs).stderr = ["invalid arguments"] :=
  ⟨(main_reports_once_exit_zero fsBadArgs).1,
   ((main_reports_once_exit_zero fsBadArgs).2 AppError.InvalidArgs [] rfl).trans rfl⟩

/-- C9: the rendered message of every `AppError` takes exactly the form
matching its variant: "invalid arguments", "path not found: <path>",
"not a directory: <path>", "permission denied: <path>", or
"I/O error: <underlying message>". -/
theorem render_message_forms (e : AppError) :
    (e = AppError.InvalidArgs ∧ e.render = "invalid arguments") ∨
    (∃ p : String, e = AppError.PathNotFound p ∧ e.render = "path not found: " ++ p) ∨
    (∃ p : String, e = AppError.NotADirectory p ∧ e.render = "not a directory: " ++ p) ∨
    (∃ p : String, e = AppError.PermissionDenied p ∧ e.render = "permission denied: " ++ p) ∨
    (∃ er : IOError, e = AppError.Io er ∧ e.render = "I/O error: " ++ er.msg) := by
  cases e with
  | InvalidArgs => exact Or.inl ⟨rfl, rfl⟩
  | PathNotFound p => exact Or.inr (Or.inl ⟨p, rfl, rfl⟩)
  | NotADirectory p => exact Or.inr (Or.inr (Or.inl ⟨p, rfl, rfl⟩))
  | PermissionDenied p => exact Or.inr (Or.inr (Or.inr (Or.inl ⟨p, rfl, rfl⟩)))
  | Io er => exact Or.inr (Or.inr (Or.inr (Or.inr ⟨er, rfl, rfl⟩)))

/-- C10: a run ending in any error — a mid-enumeration failure included —
writes nothing at all to stdout: the entry list is fully materialized
before the first print, so failure output is empty, never partial. -/
theorem failed_run_prints_nothing (fs : FS) (e : AppError)
    (h : (run fs).1 = Except.error e) :
    (run fs).2 = [] ∧ (main fs).stdout = [] := by
  have hout : (run fs).2 = [] := run_error_no_lines fs e h
  refine ⟨hout, ?_⟩
  rcases hrun : run fs with ⟨res, out⟩
  have hout2 : out = [] := by rw [hrun] at hout; exact hout
  cases res with
  | error e2 => simp [main, hrun, hout2]
  | ok u => rw [hrun] at h; exact absurd h (by simp)

/-- Witness for C10: the enumeration that fails on its second entry
produces an errored run with empty stdout. -/
theorem failed_run_prints_nothing_witness :
    (run fsMidFail).2 = [] ∧ (main fsMidFail).stdout = [] :=
  failed_run_prints_nothing fsMidFail (AppError.Io midErr) rfl

end Treer
